import Mathlib

/-!
Shallow embedding of the CIDR address model of lib-net-utils
(src/ip/cidr.rs, src/ip/v4/cidr.rs, src/ip/v6/cidr.rs, src/ip/error.rs).

The family-specific CIDR types pair an address with a subnet prefix length
(named `pfx` here; Lean reserves the source's field name), the polymorphic
type is a tagged union over the two families.  The underlying address types
(std::net::Ipv4Addr, Ipv6Addr, IpAddr) are external collaborators of the
repository and are modelled from the spec where noted.  Rust `u8` values
carry no arithmetic here, so they are embedded as `Nat` with explicit
range-side conditions where the claims need them; panicking paths
(`assert!`) are embedded as `Option` with `none` for the panic.
-/

deriving instance DecidableEq for Except

namespace NetUtils

/-- Digit character for a value below 16: decimal digits then lowercase
hexadecimal letters, as the standard integer formatter renders them. -/
def digitChar (n : Nat) : Char :=
  if n < 10 then Char.ofNat (48 + n) else Char.ofNat (87 + n)

/-- Numeric value of a digit character, accepting `0`-`9`, `a`-`f` and
`A`-`F`, as the standard integer parser reads a digit. -/
def digitVal (c : Char) : Option Nat :=
  if 48 ≤ c.toNat ∧ c.toNat ≤ 57 then some (c.toNat - 48)
  else if 97 ≤ c.toNat ∧ c.toNat ≤ 102 then some (c.toNat - 87)
  else if 65 ≤ c.toNat ∧ c.toNat ≤ 70 then some (c.toNat - 55)
  else none

/-- Digits of `n` in base `b + 2`, most significant first, prepended to
`acc0`; `fuel` bounds the recursion (any `fuel > n` is enough).  This is the
standard positional integer formatter used by the address and prefix
renderers. -/
def toBaseCharsAux (b : Nat) : Nat → Nat → List Char → List Char
  | 0, _, acc0 => acc0
  | fuel + 1, n, acc0 =>
    if n < b + 2 then digitChar n :: acc0
    else toBaseCharsAux b fuel (n / (b + 2)) (digitChar (n % (b + 2)) :: acc0)

/-- Digits of `n` in base `b + 2`, most significant first, no leading
zeros. -/
def toBaseChars (b n : Nat) : List Char := toBaseCharsAux b (n + 1) n []

/-- Accumulating positional parse of digit characters in base `b + 2`:
`none` on the first character that is not a digit of the base. -/
def ofBaseAux (b : Nat) : List Char → Nat → Option Nat
  | [], acc => some acc
  | c :: cs, acc =>
    match digitVal c with
    | some d => if d < b + 2 then ofBaseAux b cs (acc * (b + 2) + d) else none
    | none => none

/-- Parse a digit string in base `b + 2`: `none` when empty or when any
character is not a digit of the base. -/
def ofBaseChars (b : Nat) (l : List Char) : Option Nat :=
  if l = [] then none else ofBaseAux b l 0

/-- Split a character list on a separator, as Rust's `str::split` yields
successive fields: the empty input yields one empty field, a trailing
separator yields a trailing empty field. -/
def splitChar (sep : Char) : List Char → List (List Char)
  | [] => [[]]
  | c :: cs =>
    if c = sep then [] :: splitChar sep cs
    else
      match splitChar sep cs with
      | [] => [[c]]
      | f :: r => (c :: f) :: r

/-- Total order on `Nat` as Rust's integer `Ord::cmp` decides it. -/
def cmpNat (m n : Nat) : Ordering :=
  if m < n then .lt else if m = n then .eq else .gt

/-- Error of the integer parser (std::num::ParseIntError), distinguished by
cause: empty input, a non-digit character, or overflow of the target
width. -/
inductive ParseIntError where
  | empty
  | invalidDigit
  | overflow
  deriving DecidableEq

/-- Parse an unsigned 8-bit decimal integer as the prefix field is parsed:
decimal digits only, leading zeros accepted, no sign, value at most 255. -/
def parseU8 (l : List Char) : Except ParseIntError Nat :=
  if l = [] then .error .empty
  else
    match ofBaseChars 8 l with
    | none => .error .invalidDigit
    | some v => if v ≤ 255 then .ok v else .error .overflow

/-- Error of the address parser (std::net::AddrParseError); the collaborator
exposes no structure beyond its existence. -/
inductive AddrParseError where
  | invalid
  deriving DecidableEq

/-- Modelled from the spec: the external IPv4 address collaborator
(std::net::Ipv4Addr is not part of this repository) — an opaque fixed-width
32-bit value held as four octets, with total ordering and canonical
dotted-decimal text. -/
structure IPv4Address where
  o0 : Nat
  o1 : Nat
  o2 : Nat
  o3 : Nat
  deriving DecidableEq

/-- The states the 32-bit collaborator type can actually hold: each octet
fits in 8 bits. -/
abbrev IPv4Address.Valid (a : IPv4Address) : Prop :=
  a.o0 ≤ 255 ∧ a.o1 ≤ 255 ∧ a.o2 ≤ 255 ∧ a.o3 ≤ 255

/-- Modelled from the spec: total ordering of the IPv4 collaborator — the
numeric order of the 32-bit value, i.e. lexicographic on octets. -/
def IPv4Address.cmp (x y : IPv4Address) : Ordering :=
  match cmpNat x.o0 y.o0 with
  | .eq =>
    match cmpNat x.o1 y.o1 with
    | .eq =>
      match cmpNat x.o2 y.o2 with
      | .eq => cmpNat x.o3 y.o3
      | o => o
    | o => o
  | o => o

/-- Modelled from the spec: canonical text of the IPv4 collaborator, four
decimal octets separated by dots. -/
def formatIPv4Address (a : IPv4Address) : List Char :=
  toBaseChars 8 a.o0 ++ '.' ::
    (toBaseChars 8 a.o1 ++ '.' :: (toBaseChars 8 a.o2 ++ '.' :: toBaseChars 8 a.o3))

/-- One dotted-decimal octet: decimal digits, value at most 255. -/
def parseOctet (l : List Char) : Option Nat :=
  match ofBaseChars 8 l with
  | some v => if v ≤ 255 then some v else none
  | none => none

/-- Modelled from the spec: text parse of the IPv4 collaborator — exactly
four dot-separated decimal octets. -/
def parseIPv4Address (l : List Char) : Except AddrParseError IPv4Address :=
  match splitChar '.' l with
  | [p0, p1, p2, p3] =>
    match parseOctet p0, parseOctet p1, parseOctet p2, parseOctet p3 with
    | some a, some b, some c, some d => .ok ⟨a, b, c, d⟩
    | _, _, _, _ => .error .invalid
  | _ => .error .invalid

/-- Modelled from the spec: the external IPv6 address collaborator
(std::net::Ipv6Addr is not part of this repository) — an opaque fixed-width
128-bit value held as eight 16-bit groups, with total ordering and a
canonical colon-separated hexadecimal text form (the spec leaves the
address grammar to the collaborator). -/
structure IPv6Address where
  g0 : Nat
  g1 : Nat
  g2 : Nat
  g3 : Nat
  g4 : Nat
  g5 : Nat
  g6 : Nat
  g7 : Nat
  deriving DecidableEq

/-- The states the 128-bit collaborator type can actually hold: each group
fits in 16 bits. -/
abbrev IPv6Address.Valid (a : IPv6Address) : Prop :=
  a.g0 ≤ 65535 ∧ a.g1 ≤ 65535 ∧ a.g2 ≤ 65535 ∧ a.g3 ≤ 65535 ∧
    a.g4 ≤ 65535 ∧ a.g5 ≤ 65535 ∧ a.g6 ≤ 65535 ∧ a.g7 ≤ 65535

/-- Modelled from the spec: total ordering of the IPv6 collaborator — the
numeric order of the 128-bit value, i.e. lexicographic on groups. -/
def IPv6Address.cmp (x y : IPv6Address) : Ordering :=
  match cmpNat x.g0 y.g0 with
  | .eq =>
    match cmpNat x.g1 y.g1 with
    | .eq =>
      match cmpNat x.g2 y.g2 with
      | .eq =>
        match cmpNat x.g3 y.g3 with
        | .eq =>
          match cmpNat x.g4 y.g4 with
          | .eq =>
            match cmpNat x.g5 y.g5 with
            | .eq =>
              match cmpNat x.g6 y.g6 with
              | .eq => cmpNat x.g7 y.g7
              | o => o
            | o => o
          | o => o
        | o => o
      | o => o
    | o => o
  | o => o

/-- Modelled from the spec: canonical text of the IPv6 collaborator, eight
hexadecimal groups separated by colons. -/
def formatIPv6Address (a : IPv6Address) : List Char :=
  toBaseChars 14 a.g0 ++ ':' ::
    (toBaseChars 14 a.g1 ++ ':' ::
      (toBaseChars 14 a.g2 ++ ':' ::
        (toBaseChars 14 a.g3 ++ ':' ::
          (toBaseChars 14 a.g4 ++ ':' ::
            (toBaseChars 14 a.g5 ++ ':' ::
              (toBaseChars 14 a.g6 ++ ':' :: toBaseChars 14 a.g7))))))

/-- One hexadecimal group: hex digits, value at most 65535. -/
def parseGroup (l : List Char) : Option Nat :=
  match ofBaseChars 14 l with
  | some v => if v ≤ 65535 then some v else none
  | none => none

/-- Modelled from the spec: text parse of the IPv6 collaborator — exactly
eight colon-separated hexadecimal groups. -/
def parseIPv6Address (l : List Char) : Except AddrParseError IPv6Address :=
  match splitChar ':' l with
  | [p0, p1, p2, p3, p4, p5, p6, p7] =>
    match parseGroup p0, parseGroup p1, parseGroup p2, parseGroup p3,
        parseGroup p4, parseGroup p5, parseGroup p6, parseGroup p7 with
    | some a, some b, some c, some d, some e, some f, some g, some h =>
      .ok ⟨a, b, c, d, e, f, g, h⟩
    | _, _, _, _, _, _, _, _ => .error .invalid
  | _ => .error .invalid

/-- std::net::IpAddr as the repository re-exports it (`IPAddress`): a tagged
union of the two address families. -/
inductive IPAddress where
  | v4 (address : IPv4Address)
  | v6 (address : IPv6Address)
  deriving DecidableEq

/-- Modelled from the spec: the generic address parse discriminates IPv4
versus IPv6 by syntax — the IPv4 grammar is attempted first, then the IPv6
grammar. -/
def parseIPAddress (l : List Char) : Except AddrParseError IPAddress :=
  match parseIPv4Address l with
  | .ok a => .ok (.v4 a)
  | .error _ =>
    match parseIPv6Address l with
    | .ok a => .ok (.v6 a)
    | .error e => .error e

/-- src/ip/error.rs: the CIDR prefix is invalid; carries the offending
prefix (source field `prefix`). -/
structure InvalidPrefixError where
  pfx : Nat
  deriving DecidableEq

/-- src/ip/error.rs: an error while parsing a CIDR address. -/
inductive InvalidCIDRError where
  | missingAddress
  | missingPrefix
  | addressParseError (e : AddrParseError)
  | prefixParseError (e : ParseIntError)
  | invalidPrefix (e : InvalidPrefixError)
  | extraContent
  deriving DecidableEq

/-- src/ip/v4/cidr.rs: an IPv4 CIDR address; `pfx` embeds the source field
`prefix: u8`. -/
structure IPv4CIDR where
  address : IPv4Address
  pfx : Nat
  deriving DecidableEq

/-- IPv4CIDR::new_unchecked: no validation. -/
def IPv4CIDR.newUnchecked (address : IPv4Address) (pfx : Nat) : IPv4CIDR :=
  ⟨address, pfx⟩

/-- IPv4CIDR::new: asserts `prefix <= 32` (panic embedded as `none`). -/
def IPv4CIDR.new (address : IPv4Address) (pfx : Nat) : Option IPv4CIDR :=
  if pfx ≤ 32 then some (IPv4CIDR.newUnchecked address pfx) else none

/-- IPv4CIDR::try_new. -/
def IPv4CIDR.tryNew (address : IPv4Address) (pfx : Nat) :
    Except InvalidPrefixError IPv4CIDR :=
  if pfx > 32 then .error ⟨pfx⟩ else .ok (IPv4CIDR.newUnchecked address pfx)

/-- IPv4CIDR::set_address. -/
def IPv4CIDR.setAddress (c : IPv4CIDR) (address : IPv4Address) : IPv4CIDR :=
  { c with address := address }

/-- IPv4CIDR::set_prefix: asserts `prefix <= 32` (panic embedded as
`none`). -/
def IPv4CIDR.setPfx (c : IPv4CIDR) (pfx : Nat) : Option IPv4CIDR :=
  if pfx ≤ 32 then some { c with pfx := pfx } else none

/-- impl From of IPv4Address for IPv4CIDR: `IPv4CIDR::new(address, 32)`. -/
def IPv4CIDR.ofAddress (address : IPv4Address) : Option IPv4CIDR :=
  IPv4CIDR.new address 32

/-- impl TryFrom of an (address, prefix) pair for IPv4CIDR: routes through
`try_new`. -/
def IPv4CIDR.tryFromPair (address : IPv4Address) (pfx : Nat) :
    Except InvalidPrefixError IPv4CIDR :=
  IPv4CIDR.tryNew address pfx

/-- IPv4CIDR::from_str: split on `/`, parse address, parse prefix, reject
further fields, validate through `try_new`. -/
def IPv4CIDR.fromStr (s : List Char) : Except InvalidCIDRError IPv4CIDR :=
  match splitChar '/' s with
  | [] => .error .missingAddress
  | addrPart :: rest =>
    match parseIPv4Address addrPart with
    | .error e => .error (.addressParseError e)
    | .ok address =>
      match rest with
      | [] => .error .missingPrefix
      | pfxPart :: rest2 =>
        match parseU8 pfxPart with
        | .error e => .error (.prefixParseError e)
        | .ok pfx =>
          if rest2 ≠ [] then .error .extraContent
          else
            match IPv4CIDR.tryNew address pfx with
            | .error e => .error (.invalidPrefix e)
            | .ok c => .ok c

/-- impl Display for IPv4CIDR: `"{address}/{prefix}"`. -/
def IPv4CIDR.format (c : IPv4CIDR) : List Char :=
  formatIPv4Address c.address ++ '/' :: toBaseChars 8 c.pfx

/-- Derived PartialEq for IPv4CIDR: field-wise equality. -/
def IPv4CIDR.beq (x y : IPv4CIDR) : Bool :=
  decide (x.address = y.address) && decide (x.pfx = y.pfx)

/-- Derived Ord for IPv4CIDR: address first, then prefix. -/
def IPv4CIDR.cmp (x y : IPv4CIDR) : Ordering :=
  match IPv4Address.cmp x.address y.address with
  | .eq => cmpNat x.pfx y.pfx
  | o => o

/-- Hand-written PartialOrd for IPv4CIDR (src/ip/v4/cidr.rs lines 153-157):
compares the addresses only, ignoring the prefix. -/
def IPv4CIDR.pcmp (x y : IPv4CIDR) : Option Ordering :=
  some (IPv4Address.cmp x.address y.address)

/-- src/ip/v6/cidr.rs: an IPv6 CIDR address; `pfx` embeds the source field
`prefix: u8`. -/
structure IPv6CIDR where
  address : IPv6Address
  pfx : Nat
  deriving DecidableEq

/-- IPv6CIDR::new_unchecked: no validation. -/
def IPv6CIDR.newUnchecked (address : IPv6Address) (pfx : Nat) : IPv6CIDR :=
  ⟨address, pfx⟩

/-- IPv6CIDR::new: asserts `prefix <= 128` (panic embedded as `none`). -/
def IPv6CIDR.new (address : IPv6Address) (pfx : Nat) : Option IPv6CIDR :=
  if pfx ≤ 128 then some (IPv6CIDR.newUnchecked address pfx) else none

/-- IPv6CIDR::try_new. -/
def IPv6CIDR.tryNew (address : IPv6Address) (pfx : Nat) :
    Except InvalidPrefixError IPv6CIDR :=
  if pfx > 128 then .error ⟨pfx⟩ else .ok (IPv6CIDR.newUnchecked address pfx)

/-- IPv6CIDR::set_address. -/
def IPv6CIDR.setAddress (c : IPv6CIDR) (address : IPv6Address) : IPv6CIDR :=
  { c with address := address }

/-- IPv6CIDR::set_prefix: asserts `prefix <= 128` (panic embedded as
`none`). -/
def IPv6CIDR.setPfx (c : IPv6CIDR) (pfx : Nat) : Option IPv6CIDR :=
  if pfx ≤ 128 then some { c with pfx := pfx } else none

/-- impl From of IPv6Address for IPv6CIDR: `IPv6CIDR::new(address, 128)`. -/
def IPv6CIDR.ofAddress (address : IPv6Address) : Option IPv6CIDR :=
  IPv6CIDR.new address 128

/-- impl TryFrom of an (address, prefix) pair for IPv6CIDR: routes through
`try_new`. -/
def IPv6CIDR.tryFromPair (address : IPv6Address) (pfx : Nat) :
    Except InvalidPrefixError IPv6CIDR :=
  IPv6CIDR.tryNew address pfx

/-- IPv6CIDR::from_str: split on `/`, parse address, parse prefix, reject
further fields, validate through `try_new`. -/
def IPv6CIDR.fromStr (s : List Char) : Except InvalidCIDRError IPv6CIDR :=
  match splitChar '/' s with
  | [] => .error .missingAddress
  | addrPart :: rest =>
    match parseIPv6Address addrPart with
    | .error e => .error (.addressParseError e)
    | .ok address =>
      match rest with
      | [] => .error .missingPrefix
      | pfxPart :: rest2 =>
        match parseU8 pfxPart with
        | .error e => .error (.prefixParseError e)
        | .ok pfx =>
          if rest2 ≠ [] then .error .extraContent
          else
            match IPv6CIDR.tryNew address pfx with
            | .error e => .error (.invalidPrefix e)
            | .ok c => .ok c

/-- impl Display for IPv6CIDR: `"{address}/{prefix}"`. -/
def IPv6CIDR.format (c : IPv6CIDR) : List Char :=
  formatIPv6Address c.address ++ '/' :: toBaseChars 8 c.pfx

/-- Derived PartialEq for IPv6CIDR: field-wise equality. -/
def IPv6CIDR.beq (x y : IPv6CIDR) : Bool :=
  decide (x.address = y.address) && decide (x.pfx = y.pfx)

/-- Derived Ord for IPv6CIDR: address first, then prefix. -/
def IPv6CIDR.cmp (x y : IPv6CIDR) : Ordering :=
  match IPv6Address.cmp x.address y.address with
  | .eq => cmpNat x.pfx y.pfx
  | o => o

/-- Hand-written PartialOrd for IPv6CIDR (src/ip/v6/cidr.rs lines 153-157):
compares the addresses only, ignoring the prefix. -/
def IPv6CIDR.pcmp (x y : IPv6CIDR) : Option Ordering :=
  some (IPv6Address.cmp x.address y.address)

/-- src/ip/cidr.rs: an IP CIDR address, a tagged union over the two
families. -/
inductive IPCIDR where
  | v4 (c : IPv4CIDR)
  | v6 (c : IPv6CIDR)
  deriving DecidableEq

/-- Derived PartialEq for IPCIDR: same variant and payload equality. -/
def IPCIDR.beq : IPCIDR → IPCIDR → Bool
  | .v4 a, .v4 b => IPv4CIDR.beq a b
  | .v6 a, .v6 b => IPv6CIDR.beq a b
  | _, _ => false

/-- Derived Ord for IPCIDR: variant order (V4 before V6) first, then the
payload's derived Ord. -/
def IPCIDR.cmp : IPCIDR → IPCIDR → Ordering
  | .v4 a, .v4 b => IPv4CIDR.cmp a b
  | .v4 _, .v6 _ => .lt
  | .v6 _, .v4 _ => .gt
  | .v6 a, .v6 b => IPv6CIDR.cmp a b

/-- Derived PartialOrd for IPCIDR: variant order (V4 before V6) first, then
the payload's hand-written PartialOrd. -/
def IPCIDR.pcmp : IPCIDR → IPCIDR → Option Ordering
  | .v4 a, .v4 b => IPv4CIDR.pcmp a b
  | .v4 _, .v6 _ => some .lt
  | .v6 _, .v4 _ => some .gt
  | .v6 a, .v6 b => IPv6CIDR.pcmp a b

/-- impl PartialEq of IPv4CIDR for IPCIDR (src/ip/cidr.rs lines 74-81). -/
def IPCIDR.beqV4 : IPCIDR → IPv4CIDR → Bool
  | .v4 c, other => IPv4CIDR.beq c other
  | .v6 _, _ => false

/-- impl PartialEq of IPv6CIDR for IPCIDR (src/ip/cidr.rs lines 83-90). -/
def IPCIDR.beqV6 : IPCIDR → IPv6CIDR → Bool
  | .v4 _, _ => false
  | .v6 c, other => IPv6CIDR.beq c other

/-- impl PartialOrd of IPv4CIDR for IPCIDR (src/ip/cidr.rs lines 92-99). -/
def IPCIDR.pcmpV4 : IPCIDR → IPv4CIDR → Option Ordering
  | .v4 c, other => IPv4CIDR.pcmp c other
  | .v6 _, _ => some .gt

/-- impl PartialOrd of IPv6CIDR for IPCIDR (src/ip/cidr.rs lines 101-108). -/
def IPCIDR.pcmpV6 : IPCIDR → IPv6CIDR → Option Ordering
  | .v4 _, _ => some .lt
  | .v6 c, other => IPv6CIDR.pcmp c other

/-- impl PartialEq of IPCIDR for IPv4CIDR (src/ip/v4/cidr.rs lines
159-166). -/
def IPv4CIDR.beqIP (self : IPv4CIDR) : IPCIDR → Bool
  | .v4 other => IPv4CIDR.beq self other
  | .v6 _ => false

/-- impl PartialOrd of IPCIDR for IPv4CIDR (src/ip/v4/cidr.rs lines
168-175). -/
def IPv4CIDR.pcmpIP (self : IPv4CIDR) : IPCIDR → Option Ordering
  | .v4 other => IPv4CIDR.pcmp self other
  | .v6 _ => some .lt

/-- impl PartialEq of IPCIDR for IPv6CIDR (src/ip/v6/cidr.rs lines
159-166). -/
def IPv6CIDR.beqIP (self : IPv6CIDR) : IPCIDR → Bool
  | .v4 _ => false
  | .v6 other => IPv6CIDR.beq self other

/-- impl PartialOrd of IPCIDR for IPv6CIDR (src/ip/v6/cidr.rs lines
168-175). -/
def IPv6CIDR.pcmpIP (self : IPv6CIDR) : IPCIDR → Option Ordering
  | .v4 _ => some .gt
  | .v6 other => IPv6CIDR.pcmp self other

/-- IPCIDR::from_str (src/ip/cidr.rs lines 29-56): split on `/`, parse a
generic address, parse the prefix, reject further fields, then validate
through the discriminated family's `try_new`. -/
def IPCIDR.fromStr (s : List Char) : Except InvalidCIDRError IPCIDR :=
  match splitChar '/' s with
  | [] => .error .missingAddress
  | addrPart :: rest =>
    match parseIPAddress addrPart with
    | .error e => .error (.addressParseError e)
    | .ok address =>
      match rest with
      | [] => .error .missingPrefix
      | pfxPart :: rest2 =>
        match parseU8 pfxPart with
        | .error e => .error (.prefixParseError e)
        | .ok pfx =>
          if rest2 ≠ [] then .error .extraContent
          else
            match address with
            | .v4 a =>
              match IPv4CIDR.tryNew a pfx with
              | .error e => .error (.invalidPrefix e)
              | .ok c => .ok (.v4 c)
            | .v6 a =>
              match IPv6CIDR.tryNew a pfx with
              | .error e => .error (.invalidPrefix e)
              | .ok c => .ok (.v6 c)

/-- impl Display for IPCIDR: delegates to the contained family's form. -/
def IPCIDR.format : IPCIDR → List Char
  | .v4 c => IPv4CIDR.format c
  | .v6 c => IPv6CIDR.format c

/-! Helper lemmas about the embedded primitives. -/

theorem cmpNat_self (n : Nat) : cmpNat n n = .eq := by
  simp [cmpNat]

theorem cmpNat_eq_iff (m n : Nat) : cmpNat m n = .eq ↔ m = n := by
  unfold cmpNat
  split <;> rename_i h
  · simp
    omega
  · split <;> simp_all

theorem cmpNat_lt_or_gt (m n : Nat) (h : m ≠ n) :
    cmpNat m n = .lt ∨ cmpNat m n = .gt := by
  rcases Nat.lt_trichotomy m n with hlt | heq | hgt
  · exact Or.inl (by rw [cmpNat, if_pos hlt])
  · exact absurd heq h
  · exact Or.inr (by rw [cmpNat, if_neg (by omega), if_neg h])

theorem IPv4Address.cmp_self4 (a : IPv4Address) : IPv4Address.cmp a a = .eq := by
  simp [IPv4Address.cmp, cmpNat_self]

theorem IPv6Address.cmp_self6 (a : IPv6Address) : IPv6Address.cmp a a = .eq := by
  simp [IPv6Address.cmp, cmpNat_self]

theorem splitChar_ne_nil (sep : Char) (l : List Char) : splitChar sep l ≠ [] := by
  induction l with
  | nil => simp [splitChar]
  | cons c cs ih =>
    unfold splitChar
    split
    · simp
    · split <;> simp

theorem splitChar_of_not_mem {sep : Char} {l : List Char} (h : sep ∉ l) :
    splitChar sep l = [l] := by
  induction l with
  | nil => rfl
  | cons c cs ih =>
    simp only [List.mem_cons, not_or] at h
    unfold splitChar
    rw [if_neg (fun hc => h.1 hc.symm), ih h.2]

theorem splitChar_append {sep : Char} {a : List Char} (r : List Char)
    (h : sep ∉ a) : splitChar sep (a ++ sep :: r) = a :: splitChar sep r := by
  induction a with
  | nil => simp [splitChar]
  | cons c cs ih =>
    simp only [List.mem_cons, not_or] at h
    have hne : ¬c = sep := fun hc => h.1 hc.symm
    simp only [List.cons_append, splitChar, if_neg hne, List.append_eq]
    rw [ih h.2]

theorem digitVal_digitChar {n : Nat} (h : n < 16) :
    digitVal (digitChar n) = some n := by
  interval_cases n <;> decide

theorem toBaseCharsAux_ne_nil (b : Nat) :
    ∀ fuel n acc0, n < fuel → toBaseCharsAux b fuel n acc0 ≠ []
  | 0, _, _, h => by omega
  | fuel + 1, n, acc0, h => by
    unfold toBaseCharsAux
    split
    · simp
    · have hdiv : n / (b + 2) < n := Nat.div_lt_self (by omega) (by omega)
      exact toBaseCharsAux_ne_nil b fuel (n / (b + 2)) _ (by omega)

theorem mem_toBaseCharsAux {b : Nat} (hb : b + 2 ≤ 16) :
    ∀ fuel n acc0 c, n < fuel → c ∈ toBaseCharsAux b fuel n acc0 →
      (digitVal c).isSome ∨ c ∈ acc0
  | 0, _, _, _, h, _ => by omega
  | fuel + 1, n, acc0, c, h, hmem => by
    unfold toBaseCharsAux at hmem
    split at hmem
    · rcases List.mem_cons.mp hmem with hc | hc
      · subst hc
        left
        rw [digitVal_digitChar (by omega)]
        rfl
      · exact Or.inr hc
    · have hdiv : n / (b + 2) < n := Nat.div_lt_self (by omega) (by omega)
      have hmod : n % (b + 2) < b + 2 := Nat.mod_lt n (by omega)
      rcases mem_toBaseCharsAux hb fuel (n / (b + 2)) _ c (by omega) hmem with hs | hc
      · exact Or.inl hs
      · rcases List.mem_cons.mp hc with hc' | hc'
        · subst hc'
          left
          rw [digitVal_digitChar (by omega)]
          rfl
        · exact Or.inr hc'

theorem ofBaseAux_toBaseCharsAux {b : Nat} (hb : b + 2 ≤ 16) :
    ∀ fuel n, n < fuel → ∃ k, 0 < k ∧ ∀ acc0 vacc,
      ofBaseAux b (toBaseCharsAux b fuel n acc0) vacc
        = ofBaseAux b acc0 (vacc * k + n)
  | 0, _, h => by omega
  | fuel + 1, n, h => by
    by_cases hlt : n < b + 2
    · refine ⟨b + 2, by omega, fun acc0 vacc => ?_⟩
      simp only [toBaseCharsAux, if_pos hlt, ofBaseAux,
        digitVal_digitChar (show n < 16 by omega)]
    · have hdiv : n / (b + 2) < n := Nat.div_lt_self (by omega) (by omega)
      have hmod : n % (b + 2) < b + 2 := Nat.mod_lt n (by omega)
      obtain ⟨k, hk, hrec⟩ :=
        ofBaseAux_toBaseCharsAux hb fuel (n / (b + 2)) (by omega)
      refine ⟨k * (b + 2), Nat.mul_pos hk (by omega), fun acc0 vacc => ?_⟩
      simp only [toBaseCharsAux, if_neg hlt]
      rw [hrec]
      simp only [ofBaseAux, digitVal_digitChar (show n % (b + 2) < 16 by omega)]
      rw [if_pos hmod]
      congr 1
      have hqr : (b + 2) * (n / (b + 2)) + n % (b + 2) = n :=
        Nat.div_add_mod n (b + 2)
      set q := n / (b + 2) with hq
      set r := n % (b + 2) with hr
      rw [← hqr]
      ring

theorem ofBaseChars_toBaseChars {b : Nat} (hb : b + 2 ≤ 16) (n : Nat) :
    ofBaseChars b (toBaseChars b n) = some n := by
  unfold ofBaseChars toBaseChars
  rw [if_neg (toBaseCharsAux_ne_nil b (n + 1) n [] (by omega))]
  obtain ⟨k, _, hval⟩ := ofBaseAux_toBaseCharsAux hb (n + 1) n (by omega)
  rw [hval]
  simp [ofBaseAux]

theorem not_mem_toBaseChars {b : Nat} (hb : b + 2 ≤ 16) {c : Char}
    (hc : digitVal c = none) (n : Nat) : c ∉ toBaseChars b n := by
  intro hmem
  rcases mem_toBaseCharsAux hb (n + 1) n [] c (by omega) hmem with hs | h
  · rw [hc] at hs
    exact Bool.noConfusion hs
  · exact List.not_mem_nil c h

theorem toBaseChars_ne_nil (b n : Nat) : toBaseChars b n ≠ [] :=
  toBaseCharsAux_ne_nil b (n + 1) n [] (by omega)

theorem parseOctet_toBaseChars {m : Nat} (h : m ≤ 255) :
    parseOctet (toBaseChars 8 m) = some m := by
  unfold parseOctet
  rw [ofBaseChars_toBaseChars (by omega)]
  simp [h]

theorem parseGroup_toBaseChars {m : Nat} (h : m ≤ 65535) :
    parseGroup (toBaseChars 14 m) = some m := by
  unfold parseGroup
  rw [ofBaseChars_toBaseChars (by omega)]
  simp [h]

theorem parseU8_toBaseChars {m : Nat} (h : m ≤ 255) :
    parseU8 (toBaseChars 8 m) = .ok m := by
  unfold parseU8
  rw [if_neg (toBaseChars_ne_nil 8 m), ofBaseChars_toBaseChars (by omega)]
  simp [h]

theorem splitChar_dot_format4 (a : IPv4Address) :
    splitChar '.' (formatIPv4Address a) =
      [toBaseChars 8 a.o0, toBaseChars 8 a.o1, toBaseChars 8 a.o2,
        toBaseChars 8 a.o3] := by
  unfold formatIPv4Address
  rw [splitChar_append _ (not_mem_toBaseChars (by omega) (by decide) _),
    splitChar_append _ (not_mem_toBaseChars (by omega) (by decide) _),
    splitChar_append _ (not_mem_toBaseChars (by omega) (by decide) _),
    splitChar_of_not_mem (not_mem_toBaseChars (by omega) (by decide) _)]

theorem parseIPv4Address_format {a : IPv4Address} (h : a.Valid) :
    parseIPv4Address (formatIPv4Address a) = .ok a := by
  obtain ⟨h0, h1, h2, h3⟩ := h
  unfold parseIPv4Address
  rw [splitChar_dot_format4]
  simp only [parseOctet_toBaseChars h0, parseOctet_toBaseChars h1,
    parseOctet_toBaseChars h2, parseOctet_toBaseChars h3]

theorem splitChar_colon_format6 (a : IPv6Address) :
    splitChar ':' (formatIPv6Address a) =
      [toBaseChars 14 a.g0, toBaseChars 14 a.g1, toBaseChars 14 a.g2,
        toBaseChars 14 a.g3, toBaseChars 14 a.g4, toBaseChars 14 a.g5,
        toBaseChars 14 a.g6, toBaseChars 14 a.g7] := by
  unfold formatIPv6Address
  rw [splitChar_append _ (not_mem_toBaseChars (by omega) (by decide) _),
    splitChar_append _ (not_mem_toBaseChars (by omega) (by decide) _),
    splitChar_append _ (not_mem_toBaseChars (by omega) (by decide) _),
    splitChar_append _ (not_mem_toBaseChars (by omega) (by decide) _),
    splitChar_append _ (not_mem_toBaseChars (by omega) (by decide) _),
    splitChar_append _ (not_mem_toBaseChars (by omega) (by decide) _),
    splitChar_append _ (not_mem_toBaseChars (by omega) (by decide) _),
    splitChar_of_not_mem (not_mem_toBaseChars (by omega) (by decide) _)]

theorem parseIPv6Address_format {a : IPv6Address} (h : a.Valid) :
    parseIPv6Address (formatIPv6Address a) = .ok a := by
  obtain ⟨h0, h1, h2, h3, h4, h5, h6, h7⟩ := h
  unfold parseIPv6Address
  rw [splitChar_colon_format6]
  simp only [parseGroup_toBaseChars h0, parseGroup_toBaseChars h1,
    parseGroup_toBaseChars h2, parseGroup_toBaseChars h3,
    parseGroup_toBaseChars h4, parseGroup_toBaseChars h5,
    parseGroup_toBaseChars h6, parseGroup_toBaseChars h7]

theorem slash_not_mem_format4 (a : IPv4Address) :
    '/' ∉ formatIPv4Address a := by
  have h0 : ∀ n, '/' ∉ toBaseChars 8 n :=
    fun n => not_mem_toBaseChars (by omega) (by decide) n
  unfold formatIPv4Address
  simp only [List.mem_append, List.mem_cons, not_or]
  exact ⟨h0 _, by decide, h0 _, by decide, h0 _, by decide, h0 _⟩

theorem slash_not_mem_format6 (a : IPv6Address) :
    '/' ∉ formatIPv6Address a := by
  have h0 : ∀ n, '/' ∉ toBaseChars 14 n :=
    fun n => not_mem_toBaseChars (by omega) (by decide) n
  unfold formatIPv6Address
  simp only [List.mem_append, List.mem_cons, not_or]
  exact ⟨h0 _, by decide, h0 _, by decide, h0 _, by decide, h0 _, by decide,
    h0 _, by decide, h0 _, by decide, h0 _, by decide, h0 _⟩

theorem splitChar_slash_format4 (c : IPv4CIDR) :
    splitChar '/' (IPv4CIDR.format c) =
      [formatIPv4Address c.address, toBaseChars 8 c.pfx] := by
  unfold IPv4CIDR.format
  rw [splitChar_append _ (slash_not_mem_format4 _),
    splitChar_of_not_mem (not_mem_toBaseChars (by omega) (by decide) _)]

theorem splitChar_slash_format6 (c : IPv6CIDR) :
    splitChar '/' (IPv6CIDR.format c) =
      [formatIPv6Address c.address, toBaseChars 8 c.pfx] := by
  unfold IPv6CIDR.format
  rw [splitChar_append _ (slash_not_mem_format6 _),
    splitChar_of_not_mem (not_mem_toBaseChars (by omega) (by decide) _)]

theorem IPv4CIDR.tryNew_of_le4 {a : IPv4Address} {p : Nat} (h : p ≤ 32) :
    IPv4CIDR.tryNew a p = .ok ⟨a, p⟩ := by
  unfold IPv4CIDR.tryNew
  rw [if_neg (by omega)]
  rfl

theorem IPv4CIDR.tryNew_of_gt4 {a : IPv4Address} {p : Nat} (h : 32 < p) :
    IPv4CIDR.tryNew a p = .error ⟨p⟩ := by
  unfold IPv4CIDR.tryNew
  rw [if_pos h]

theorem IPv4CIDR.tryNew_ok4 {a : IPv4Address} {p : Nat} {c : IPv4CIDR}
    (h : IPv4CIDR.tryNew a p = .ok c) : c = ⟨a, p⟩ ∧ p ≤ 32 := by
  unfold IPv4CIDR.tryNew at h
  split at h
  · exact absurd h (by simp)
  · injection h with h'
    exact ⟨h'.symm, by omega⟩

theorem IPv6CIDR.tryNew_of_le6 {a : IPv6Address} {p : Nat} (h : p ≤ 128) :
    IPv6CIDR.tryNew a p = .ok ⟨a, p⟩ := by
  unfold IPv6CIDR.tryNew
  rw [if_neg (by omega)]
  rfl

theorem IPv6CIDR.tryNew_of_gt6 {a : IPv6Address} {p : Nat} (h : 128 < p) :
    IPv6CIDR.tryNew a p = .error ⟨p⟩ := by
  unfold IPv6CIDR.tryNew
  rw [if_pos h]

theorem IPv6CIDR.tryNew_ok6 {a : IPv6Address} {p : Nat} {c : IPv6CIDR}
    (h : IPv6CIDR.tryNew a p = .ok c) : c = ⟨a, p⟩ ∧ p ≤ 128 := by
  unfold IPv6CIDR.tryNew at h
  split at h
  · exact absurd h (by simp)
  · injection h with h'
    exact ⟨h'.symm, by omega⟩

theorem IPv4CIDR.fromStr_format4 {c : IPv4CIDR} (ha : c.address.Valid)
    (hp : c.pfx ≤ 32) : IPv4CIDR.fromStr (IPv4CIDR.format c) = .ok c := by
  unfold IPv4CIDR.fromStr
  rw [splitChar_slash_format4]
  simp only [parseIPv4Address_format ha,
    parseU8_toBaseChars (show c.pfx ≤ 255 by omega), ne_eq,
    not_true_eq_false, if_false, IPv4CIDR.tryNew_of_le4 hp]

theorem IPv6CIDR.fromStr_format6 {c : IPv6CIDR} (ha : c.address.Valid)
    (hp : c.pfx ≤ 128) : IPv6CIDR.fromStr (IPv6CIDR.format c) = .ok c := by
  unfold IPv6CIDR.fromStr
  rw [splitChar_slash_format6]
  simp only [parseIPv6Address_format ha,
    parseU8_toBaseChars (show c.pfx ≤ 255 by omega), ne_eq,
    not_true_eq_false, if_false, IPv6CIDR.tryNew_of_le6 hp]

theorem IPv4CIDR.fromStr_pfx_le4 {s : List Char} {c : IPv4CIDR}
    (h : IPv4CIDR.fromStr s = .ok c) : c.pfx ≤ 32 := by
  unfold IPv4CIDR.fromStr at h
  split at h
  · exact absurd h (by simp)
  · split at h
    · exact absurd h (by simp)
    · split at h
      · exact absurd h (by simp)
      · split at h
        · exact absurd h (by simp)
        · split at h
          · exact absurd h (by simp)
          · split at h
            · exact absurd h (by simp)
            · rename_i htry
              injection h with h'
              obtain ⟨hc, hle⟩ := IPv4CIDR.tryNew_ok4 htry
              rw [← h', hc]
              exact hle

theorem IPv6CIDR.fromStr_pfx_le6 {s : List Char} {c : IPv6CIDR}
    (h : IPv6CIDR.fromStr s = .ok c) : c.pfx ≤ 128 := by
  unfold IPv6CIDR.fromStr at h
  split at h
  · exact absurd h (by simp)
  · split at h
    · exact absurd h (by simp)
    · split at h
      · exact absurd h (by simp)
      · split at h
        · exact absurd h (by simp)
        · split at h
          · exact absurd h (by simp)
          · split at h
            · exact absurd h (by simp)
            · rename_i htry
              injection h with h'
              obtain ⟨hc, hle⟩ := IPv6CIDR.tryNew_ok6 htry
              rw [← h', hc]
              exact hle

theorem IPv4CIDR.fromStr_ne_missingAddress4 (s : List Char) :
    IPv4CIDR.fromStr s ≠ .error .missingAddress := by
  intro h
  unfold IPv4CIDR.fromStr at h
  split at h
  · exact splitChar_ne_nil _ _ (by assumption)
  · split at h <;> try simp_all
    split at h <;> try simp_all
    split at h <;> try simp_all
    split at h <;> try simp_all
    split at h <;> simp_all

theorem IPv6CIDR.fromStr_ne_missingAddress6 (s : List Char) :
    IPv6CIDR.fromStr s ≠ .error .missingAddress := by
  intro h
  unfold IPv6CIDR.fromStr at h
  split at h
  · exact splitChar_ne_nil _ _ (by assumption)
  · split at h <;> try simp_all
    split at h <;> try simp_all
    split at h <;> try simp_all
    split at h <;> try simp_all
    split at h <;> simp_all

theorem IPCIDR.fromStr_ne_missingAddressIP (s : List Char) :
    IPCIDR.fromStr s ≠ .error .missingAddress := by
  intro h
  unfold IPCIDR.fromStr at h
  split at h
  · exact splitChar_ne_nil _ _ (by assumption)
  · split at h <;> try simp_all
    split at h <;> try simp_all
    split at h <;> try simp_all
    split at h <;> try simp_all
    split at h <;> try simp_all
    split at h <;> try simp_all
    split at h <;> simp_all

theorem IPv4CIDR.beq_iff4 (x y : IPv4CIDR) :
    IPv4CIDR.beq x y = true ↔ x.address = y.address ∧ x.pfx = y.pfx := by
  simp [IPv4CIDR.beq]

theorem IPv6CIDR.beq_iff6 (x y : IPv6CIDR) :
    IPv6CIDR.beq x y = true ↔ x.address = y.address ∧ x.pfx = y.pfx := by
  simp [IPv6CIDR.beq]

theorem IPv4CIDR.beq_comm4 (x y : IPv4CIDR) :
    IPv4CIDR.beq x y = IPv4CIDR.beq y x := by
  unfold IPv4CIDR.beq
  rw [show decide (x.address = y.address) = decide (y.address = x.address)
      from decide_eq_decide.mpr eq_comm,
    show decide (x.pfx = y.pfx) = decide (y.pfx = x.pfx)
      from decide_eq_decide.mpr eq_comm]

theorem IPv6CIDR.beq_comm6 (x y : IPv6CIDR) :
    IPv6CIDR.beq x y = IPv6CIDR.beq y x := by
  unfold IPv6CIDR.beq
  rw [show decide (x.address = y.address) = decide (y.address = x.address)
      from decide_eq_decide.mpr eq_comm,
    show decide (x.pfx = y.pfx) = decide (y.pfx = x.pfx)
      from decide_eq_decide.mpr eq_comm]

theorem IPv4CIDR.new_some4 {a : IPv4Address} {p : Nat} {c : IPv4CIDR}
    (h : IPv4CIDR.new a p = some c) : c = ⟨a, p⟩ ∧ p ≤ 32 := by
  unfold IPv4CIDR.new at h
  split at h
  · rename_i hle
    injection h with h'
    exact ⟨h'.symm, hle⟩
  · exact absurd h (by simp)

theorem IPv6CIDR.new_some6 {a : IPv6Address} {p : Nat} {c : IPv6CIDR}
    (h : IPv6CIDR.new a p = some c) : c = ⟨a, p⟩ ∧ p ≤ 128 := by
  unfold IPv6CIDR.new at h
  split at h
  · rename_i hle
    injection h with h'
    exact ⟨h'.symm, hle⟩
  · exact absurd h (by simp)

theorem IPv4CIDR.setPfx_some4 {c : IPv4CIDR} {p : Nat} {d : IPv4CIDR}
    (h : IPv4CIDR.setPfx c p = some d) : d.pfx = p ∧ p ≤ 32 := by
  unfold IPv4CIDR.setPfx at h
  split at h
  · rename_i hle
    injection h with h'
    exact ⟨by rw [← h'], hle⟩
  · exact absurd h (by simp)

theorem IPv6CIDR.setPfx_some6 {c : IPv6CIDR} {p : Nat} {d : IPv6CIDR}
    (h : IPv6CIDR.setPfx c p = some d) : d.pfx = p ∧ p ≤ 128 := by
  unfold IPv6CIDR.setPfx at h
  split at h
  · rename_i hle
    injection h with h'
    exact ⟨by rw [← h'], hle⟩
  · exact absurd h (by simp)

/-! The claims. -/

/-- C1: for both CIDR families, the derived equality holds iff both the
address and the prefix match, while the hand-written `partial_cmp` returns
exactly the comparison of the addresses, ignoring the prefix; hence two
same-family CIDRs with the same address and different prefixes are unequal
yet ordering-equivalent (`partial_cmp` yields `Some(Equal)`). -/
theorem C1_same_family_eq_vs_ordering :
    (∀ x y : IPv4CIDR,
      IPv4CIDR.beq x y = true ↔ x.address = y.address ∧ x.pfx = y.pfx)
  ∧ (∀ x y : IPv4CIDR,
      IPv4CIDR.pcmp x y = some (IPv4Address.cmp x.address y.address))
  ∧ (∀ (a : IPv4Address) (p q : Nat), p ≠ q →
      IPv4CIDR.beq ⟨a, p⟩ ⟨a, q⟩ = false ∧
        IPv4CIDR.pcmp ⟨a, p⟩ ⟨a, q⟩ = some .eq)
  ∧ (∀ x y : IPv6CIDR,
      IPv6CIDR.beq x y = true ↔ x.address = y.address ∧ x.pfx = y.pfx)
  ∧ (∀ x y : IPv6CIDR,
      IPv6CIDR.pcmp x y = some (IPv6Address.cmp x.address y.address))
  ∧ (∀ (a : IPv6Address) (p q : Nat), p ≠ q →
      IPv6CIDR.beq ⟨a, p⟩ ⟨a, q⟩ = false ∧
        IPv6CIDR.pcmp ⟨a, p⟩ ⟨a, q⟩ = some .eq) := by
  refine ⟨IPv4CIDR.beq_iff4, fun x y => rfl,
    fun a p q hpq => ⟨?_, ?_⟩, IPv6CIDR.beq_iff6, fun x y => rfl,
    fun a p q hpq => ⟨?_, ?_⟩⟩
  · simp [IPv4CIDR.beq, hpq]
  · simp [IPv4CIDR.pcmp, IPv4Address.cmp_self4]
  · simp [IPv6CIDR.beq, hpq]
  · simp [IPv6CIDR.pcmp, IPv6Address.cmp_self6]

/-- C1 witness: the spec's concrete scenario, one address with prefixes 24
and 16 — unequal, yet ordering-equivalent. -/
theorem C1_witness :
    IPv4CIDR.beq ⟨⟨192, 168, 1, 0⟩, 24⟩ ⟨⟨192, 168, 1, 0⟩, 16⟩ = false ∧
      IPv4CIDR.pcmp ⟨⟨192, 168, 1, 0⟩, 24⟩ ⟨⟨192, 168, 1, 0⟩, 16⟩ =
        some .eq :=
  C1_same_family_eq_vs_ordering.2.2.1 ⟨192, 168, 1, 0⟩ 24 16 (by decide)

/-- C2: cross-family comparison always orders the IPv4 family strictly
before the IPv6 family, in every direction: between two polymorphic values
(both for the derived PartialOrd and the derived Ord), and between a
polymorphic value and a bare family value, each mixed pair giving mutually
reversed results. -/
theorem C2_family_precedence :
    (∀ (u : IPv4CIDR) (v : IPv6CIDR),
      IPCIDR.pcmp (.v4 u) (.v6 v) = some .lt ∧
        IPCIDR.pcmp (.v6 v) (.v4 u) = some .gt ∧
        IPCIDR.cmp (.v4 u) (.v6 v) = .lt ∧
        IPCIDR.cmp (.v6 v) (.v4 u) = .gt)
  ∧ (∀ (c : IPv6CIDR) (d : IPv4CIDR),
      IPCIDR.pcmpV4 (.v6 c) d = some .gt ∧
        IPv4CIDR.pcmpIP d (.v6 c) = some .lt)
  ∧ (∀ (c : IPv4CIDR) (d : IPv6CIDR),
      IPCIDR.pcmpV6 (.v4 c) d = some .lt ∧
        IPv6CIDR.pcmpIP d (.v4 c) = some .gt) :=
  ⟨fun _ _ => ⟨rfl, rfl, rfl, rfl⟩, fun _ _ => ⟨rfl, rfl⟩,
    fun _ _ => ⟨rfl, rfl⟩⟩

/-- C3: for every prefix value in the u8 range, `try_new` succeeds with a
CIDR carrying exactly the given address and prefix iff the prefix is within
the family bound (32 or 128), and fails with `InvalidPrefixError` carrying
exactly the offending input iff it exceeds it. -/
theorem C3_tryNew_bound (p : Nat) (_hp : p ≤ 255) :
    ∀ (a4 : IPv4Address) (a6 : IPv6Address),
      (IPv4CIDR.tryNew a4 p = .ok ⟨a4, p⟩ ↔ p ≤ 32)
    ∧ (IPv4CIDR.tryNew a4 p = .error ⟨p⟩ ↔ 32 < p)
    ∧ (IPv6CIDR.tryNew a6 p = .ok ⟨a6, p⟩ ↔ p ≤ 128)
    ∧ (IPv6CIDR.tryNew a6 p = .error ⟨p⟩ ↔ 128 < p) := by
  intro a4 a6
  refine ⟨⟨fun h => (IPv4CIDR.tryNew_ok4 h).2, IPv4CIDR.tryNew_of_le4⟩,
    ⟨fun h => ?_, IPv4CIDR.tryNew_of_gt4⟩,
    ⟨fun h => (IPv6CIDR.tryNew_ok6 h).2, IPv6CIDR.tryNew_of_le6⟩,
    ⟨fun h => ?_, IPv6CIDR.tryNew_of_gt6⟩⟩
  · by_contra hc
    push_neg at hc
    rw [IPv4CIDR.tryNew_of_le4 hc] at h
    exact absurd h (by simp)
  · by_contra hc
    push_neg at hc
    rw [IPv6CIDR.tryNew_of_le6 hc] at h
    exact absurd h (by simp)

/-- C3 witness: at prefix 33 the IPv4 family rejects (carrying 33) and the
IPv6 family accepts, exactly as the bound dictates. -/
theorem C3_witness :
    (IPv4CIDR.tryNew ⟨10, 0, 0, 1⟩ 33 = .ok ⟨⟨10, 0, 0, 1⟩, 33⟩ ↔
        (33 : Nat) ≤ 32)
  ∧ (IPv4CIDR.tryNew ⟨10, 0, 0, 1⟩ 33 = .error ⟨33⟩ ↔ (32 : Nat) < 33)
  ∧ (IPv6CIDR.tryNew ⟨0, 0, 0, 0, 0, 0, 0, 1⟩ 33 =
        .ok ⟨⟨0, 0, 0, 0, 0, 0, 0, 1⟩, 33⟩ ↔ (33 : Nat) ≤ 128)
  ∧ (IPv6CIDR.tryNew ⟨0, 0, 0, 0, 0, 0, 0, 1⟩ 33 = .error ⟨33⟩ ↔
        (128 : Nat) < 33) :=
  C3_tryNew_bound 33 (by decide) ⟨10, 0, 0, 1⟩ ⟨0, 0, 0, 0, 0, 0, 0, 1⟩

/-- C4: round-trip — for every representable family CIDR value whose prefix
is within the family bound, parsing the canonical `address/prefix` text
back yields the value itself. -/
theorem C4_roundtrip :
    (∀ c : IPv4CIDR, c.address.Valid → c.pfx ≤ 32 →
      IPv4CIDR.fromStr (IPv4CIDR.format c) = .ok c)
  ∧ (∀ c : IPv6CIDR, c.address.Valid → c.pfx ≤ 128 →
      IPv6CIDR.fromStr (IPv6CIDR.format c) = .ok c) :=
  ⟨fun _ ha hp => IPv4CIDR.fromStr_format4 ha hp,
    fun _ ha hp => IPv6CIDR.fromStr_format6 ha hp⟩

/-- C4 witness: the round-trip evaluated at 192.168.1.0/24 and ::1/128. -/
theorem C4_witness :
    IPv4CIDR.fromStr (IPv4CIDR.format ⟨⟨192, 168, 1, 0⟩, 24⟩) =
      .ok ⟨⟨192, 168, 1, 0⟩, 24⟩
  ∧ IPv6CIDR.fromStr (IPv6CIDR.format ⟨⟨0, 0, 0, 0, 0, 0, 0, 1⟩, 128⟩) =
      .ok ⟨⟨0, 0, 0, 0, 0, 0, 0, 1⟩, 128⟩ :=
  ⟨C4_roundtrip.1 _ (by decide) (by decide),
    C4_roundtrip.2 _ (by decide) (by decide)⟩

/-- C5 counterexample: parsing the empty string does not return
MissingAddress — the split of "" still yields one (empty) address field,
so the parse fails with AddressParseError instead. -/
theorem C5_counterexample :
    IPCIDR.fromStr (String.toList "") = .error (.addressParseError .invalid)
  ∧ IPCIDR.fromStr (String.toList "") ≠ .error .missingAddress :=
  ⟨by decide, by decide⟩

/-- C5 (amended): grammar rejection on the concrete inputs as claimed,
except that the empty string fails with AddressParseError (the
MissingAddress branch is unreachable), not MissingAddress. -/
theorem C5_grammar_rejection :
    IPCIDR.fromStr (String.toList "") = .error (.addressParseError .invalid)
  ∧ IPCIDR.fromStr (String.toList "10.0.0.1") = .error .missingPrefix
  ∧ IPCIDR.fromStr (String.toList "10.0.0.1/33") =
      .error (.invalidPrefix ⟨33⟩)
  ∧ IPCIDR.fromStr (String.toList "10.0.0.1/24/extra") =
      .error .extraContent
  ∧ IPCIDR.fromStr (String.toList "not-an-ip/24") =
      .error (.addressParseError .invalid)
  ∧ IPCIDR.fromStr (String.toList "10.0.0.1/abc") =
      .error (.prefixParseError .invalidDigit) :=
  ⟨by decide, by decide, by decide, by decide, by decide, by decide⟩

/-- C6 counterexample: the input "abc" contains no slash yet fails with
AddressParseError rather than MissingPrefix — the address field is
examined before the missing prefix is noticed, so the claimed universal
error assignment by slash count is false as stated. -/
theorem C6_counterexample :
    (String.toList "abc").count '/' = 0
  ∧ IPCIDR.fromStr (String.toList "abc") =
      .error (.addressParseError .invalid)
  ∧ IPCIDR.fromStr (String.toList "abc") ≠ .error .missingPrefix :=
  ⟨by decide, by decide, by decide⟩

/-- C6 (amended): slash multiplicity, restricted to inputs whose earlier
fields parse — with a well-formed address and no slash the error is
MissingPrefix; with a well-formed address, a well-formed prefix field and a
second slash the error is ExtraContent; with a well-formed address and a
single trailing slash the empty second field gives PrefixParseError from
the integer parser, not MissingPrefix; and whenever the address field (the
first split segment, which always exists) fails to parse, the error is
AddressParseError regardless of how many slashes the input holds. -/
theorem C6_slash_multiplicity :
    (∀ (s : List Char) (addr : IPAddress), '/' ∉ s →
      parseIPAddress s = .ok addr →
      IPCIDR.fromStr s = .error .missingPrefix)
  ∧ (∀ (aPart bPart t : List Char) (addr : IPAddress) (p : Nat),
      '/' ∉ aPart → '/' ∉ bPart →
      parseIPAddress aPart = .ok addr → parseU8 bPart = .ok p →
      IPCIDR.fromStr (aPart ++ '/' :: (bPart ++ '/' :: t)) =
        .error .extraContent)
  ∧ (∀ (aPart : List Char) (addr : IPAddress), '/' ∉ aPart →
      parseIPAddress aPart = .ok addr →
      IPCIDR.fromStr (aPart ++ ['/']) =
        .error (.prefixParseError .empty))
  ∧ (∀ (s aPart : List Char) (rest : List (List Char)) (e : AddrParseError),
      splitChar '/' s = aPart :: rest →
      parseIPAddress aPart = .error e →
      IPCIDR.fromStr s = .error (.addressParseError e)) := by
  refine ⟨fun s addr hs hp => ?_, fun aPart bPart t addr p ha hb hp hq => ?_,
    fun aPart addr ha hp => ?_, fun s aPart rest e hsplit hp => ?_⟩
  · unfold IPCIDR.fromStr
    rw [splitChar_of_not_mem hs]
    simp only [hp]
  · unfold IPCIDR.fromStr
    rw [splitChar_append _ ha, splitChar_append _ hb]
    simp only [hp, hq]
    rw [if_pos (splitChar_ne_nil '/' t)]
  · unfold IPCIDR.fromStr
    rw [splitChar_append _ ha]
    simp only [hp]
    rfl
  · unfold IPCIDR.fromStr
    rw [hsplit]
    simp only [hp]

/-- C6 witness: the four amended branches evaluated on concrete inputs,
the last one on a bad address with two slashes. -/
theorem C6_witness :
    IPCIDR.fromStr (String.toList "10.0.0.1") = .error .missingPrefix
  ∧ IPCIDR.fromStr (String.toList "10.0.0.1/24/x") = .error .extraContent
  ∧ IPCIDR.fromStr (String.toList "10.0.0.1/") =
      .error (.prefixParseError .empty)
  ∧ IPCIDR.fromStr (String.toList "ab/cd/ef") =
      .error (.addressParseError .invalid) :=
  ⟨C6_slash_multiplicity.1 (String.toList "10.0.0.1") (.v4 ⟨10, 0, 0, 1⟩)
      (by decide) (by decide),
    C6_slash_multiplicity.2.1 (String.toList "10.0.0.1") (String.toList "24")
      (String.toList "x") (.v4 ⟨10, 0, 0, 1⟩) 24 (by decide) (by decide)
      (by decide) (by decide),
    C6_slash_multiplicity.2.2.1 (String.toList "10.0.0.1")
      (.v4 ⟨10, 0, 0, 1⟩) (by decide) (by decide),
    C6_slash_multiplicity.2.2.2 (String.toList "ab/cd/ef")
      (String.toList "ab") [String.toList "cd", String.toList "ef"] .invalid
      (by decide) (by decide)⟩

/-- C7: the invariant prefix ≤ W (32 for IPv4, 128 for IPv6) holds for
every instance produced by the validated paths — new, try_new, from_str,
the conversion from a bare address, the (address, prefix) conversion — and
is preserved by set_address and set_prefix. -/
theorem C7_invariant :
    (∀ (a : IPv4Address) (p : Nat) (c : IPv4CIDR),
      IPv4CIDR.new a p = some c → c.pfx ≤ 32)
  ∧ (∀ (a : IPv4Address) (p : Nat) (c : IPv4CIDR),
      IPv4CIDR.tryNew a p = .ok c → c.pfx ≤ 32)
  ∧ (∀ (s : List Char) (c : IPv4CIDR),
      IPv4CIDR.fromStr s = .ok c → c.pfx ≤ 32)
  ∧ (∀ (a : IPv4Address) (c : IPv4CIDR),
      IPv4CIDR.ofAddress a = some c → c.pfx ≤ 32)
  ∧ (∀ (a : IPv4Address) (p : Nat) (c : IPv4CIDR),
      IPv4CIDR.tryFromPair a p = .ok c → c.pfx ≤ 32)
  ∧ (∀ (c : IPv4CIDR) (a : IPv4Address),
      c.pfx ≤ 32 → (IPv4CIDR.setAddress c a).pfx ≤ 32)
  ∧ (∀ (c : IPv4CIDR) (p : Nat) (d : IPv4CIDR),
      IPv4CIDR.setPfx c p = some d → d.pfx ≤ 32)
  ∧ (∀ (a : IPv6Address) (p : Nat) (c : IPv6CIDR),
      IPv6CIDR.new a p = some c → c.pfx ≤ 128)
  ∧ (∀ (a : IPv6Address) (p : Nat) (c : IPv6CIDR),
      IPv6CIDR.tryNew a p = .ok c → c.pfx ≤ 128)
  ∧ (∀ (s : List Char) (c : IPv6CIDR),
      IPv6CIDR.fromStr s = .ok c → c.pfx ≤ 128)
  ∧ (∀ (a : IPv6Address) (c : IPv6CIDR),
      IPv6CIDR.ofAddress a = some c → c.pfx ≤ 128)
  ∧ (∀ (a : IPv6Address) (p : Nat) (c : IPv6CIDR),
      IPv6CIDR.tryFromPair a p = .ok c → c.pfx ≤ 128)
  ∧ (∀ (c : IPv6CIDR) (a : IPv6Address),
      c.pfx ≤ 128 → (IPv6CIDR.setAddress c a).pfx ≤ 128)
  ∧ (∀ (c : IPv6CIDR) (p : Nat) (d : IPv6CIDR),
      IPv6CIDR.setPfx c p = some d → d.pfx ≤ 128) := by
  refine ⟨fun a p c h => ?_, fun a p c h => ?_, fun s c h => ?_,
    fun a c h => ?_, fun a p c h => ?_, fun c a h => h, fun c p d h => ?_,
    fun a p c h => ?_, fun a p c h => ?_, fun s c h => ?_,
    fun a c h => ?_, fun a p c h => ?_, fun c a h => h, fun c p d h => ?_⟩
  · obtain ⟨hc, hle⟩ := IPv4CIDR.new_some4 h
    rw [hc]
    exact hle
  · obtain ⟨hc, hle⟩ := IPv4CIDR.tryNew_ok4 h
    rw [hc]
    exact hle
  · exact IPv4CIDR.fromStr_pfx_le4 h
  · obtain ⟨hc, _⟩ := IPv4CIDR.new_some4 h
    rw [hc]
  · obtain ⟨hc, hle⟩ := IPv4CIDR.tryNew_ok4 h
    rw [hc]
    exact hle
  · obtain ⟨hd, hle⟩ := IPv4CIDR.setPfx_some4 h
    rw [hd]
    exact hle
  · obtain ⟨hc, hle⟩ := IPv6CIDR.new_some6 h
    rw [hc]
    exact hle
  · obtain ⟨hc, hle⟩ := IPv6CIDR.tryNew_ok6 h
    rw [hc]
    exact hle
  · exact IPv6CIDR.fromStr_pfx_le6 h
  · obtain ⟨hc, _⟩ := IPv6CIDR.new_some6 h
    rw [hc]
  · obtain ⟨hc, hle⟩ := IPv6CIDR.tryNew_ok6 h
    rw [hc]
    exact hle
  · obtain ⟨hd, hle⟩ := IPv6CIDR.setPfx_some6 h
    rw [hd]
    exact hle

/-- C7 witness: the invariant evaluated on a freshly constructed and a
mutated instance. -/
theorem C7_witness :
    (IPv4CIDR.newUnchecked ⟨10, 0, 0, 1⟩ 24).pfx ≤ 32 ∧
      (IPv6CIDR.newUnchecked ⟨0, 0, 0, 0, 0, 0, 0, 1⟩ 64).pfx ≤ 128 :=
  ⟨C7_invariant.1 ⟨10, 0, 0, 1⟩ 24 _ rfl,
    C7_invariant.2.2.2.2.2.2.2.1 ⟨0, 0, 0, 0, 0, 0, 0, 1⟩ 64 _ rfl⟩

/-- C8: cross-family equality is always false in both mixed directions,
and when the union's tag matches the bare operand's family, equality is
exactly the contained family equality, the reversed direction agreeing. -/
theorem C8_cross_family_equality :
    (∀ (c : IPv6CIDR) (d : IPv4CIDR),
      IPCIDR.beqV4 (.v6 c) d = false ∧ IPv4CIDR.beqIP d (.v6 c) = false)
  ∧ (∀ (c : IPv4CIDR) (d : IPv6CIDR),
      IPCIDR.beqV6 (.v4 c) d = false ∧ IPv6CIDR.beqIP d (.v4 c) = false)
  ∧ (∀ (c d : IPv4CIDR),
      IPCIDR.beqV4 (.v4 c) d = IPv4CIDR.beq c d ∧
        IPv4CIDR.beqIP d (.v4 c) = IPCIDR.beqV4 (.v4 c) d)
  ∧ (∀ (c d : IPv6CIDR),
      IPCIDR.beqV6 (.v6 c) d = IPv6CIDR.beq c d ∧
        IPv6CIDR.beqIP d (.v6 c) = IPCIDR.beqV6 (.v6 c) d) := by
  refine ⟨fun c d => ⟨rfl, rfl⟩, fun c d => ⟨rfl, rfl⟩,
    fun c d => ⟨rfl, ?_⟩, fun c d => ⟨rfl, ?_⟩⟩
  · show IPv4CIDR.beq d c = IPv4CIDR.beq c d
    exact IPv4CIDR.beq_comm4 d c
  · show IPv6CIDR.beq d c = IPv6CIDR.beq c d
    exact IPv6CIDR.beq_comm6 d c

/-- C9: for both families the derived total order (address then prefix)
disagrees with the hand-written partial order (address only): with equal
addresses and different prefixes, partial_cmp yields Some(Equal) while cmp
yields Less or Greater, so partial_cmp is not Some of cmp there. -/
theorem C9_pcmp_cmp_disagree :
    (∀ (a : IPv4Address) (p q : Nat), p ≠ q →
      IPv4CIDR.pcmp ⟨a, p⟩ ⟨a, q⟩ = some .eq
      ∧ (IPv4CIDR.cmp ⟨a, p⟩ ⟨a, q⟩ = .lt ∨
          IPv4CIDR.cmp ⟨a, p⟩ ⟨a, q⟩ = .gt)
      ∧ IPv4CIDR.pcmp ⟨a, p⟩ ⟨a, q⟩ ≠ some (IPv4CIDR.cmp ⟨a, p⟩ ⟨a, q⟩))
  ∧ (∀ (a : IPv6Address) (p q : Nat), p ≠ q →
      IPv6CIDR.pcmp ⟨a, p⟩ ⟨a, q⟩ = some .eq
      ∧ (IPv6CIDR.cmp ⟨a, p⟩ ⟨a, q⟩ = .lt ∨
          IPv6CIDR.cmp ⟨a, p⟩ ⟨a, q⟩ = .gt)
      ∧ IPv6CIDR.pcmp ⟨a, p⟩ ⟨a, q⟩ ≠
          some (IPv6CIDR.cmp ⟨a, p⟩ ⟨a, q⟩)) := by
  refine ⟨fun a p q hpq => ?_, fun a p q hpq => ?_⟩
  · have h1 : IPv4CIDR.pcmp ⟨a, p⟩ ⟨a, q⟩ = some .eq := by
      simp [IPv4CIDR.pcmp, IPv4Address.cmp_self4]
    have h2 : IPv4CIDR.cmp ⟨a, p⟩ ⟨a, q⟩ = cmpNat p q := by
      simp [IPv4CIDR.cmp, IPv4Address.cmp_self4]
    refine ⟨h1, ?_, ?_⟩
    · rw [h2]
      exact cmpNat_lt_or_gt p q hpq
    · rw [h1, h2]
      rcases cmpNat_lt_or_gt p q hpq with h | h <;> rw [h] <;> simp
  · have h1 : IPv6CIDR.pcmp ⟨a, p⟩ ⟨a, q⟩ = some .eq := by
      simp [IPv6CIDR.pcmp, IPv6Address.cmp_self6]
    have h2 : IPv6CIDR.cmp ⟨a, p⟩ ⟨a, q⟩ = cmpNat p q := by
      simp [IPv6CIDR.cmp, IPv6Address.cmp_self6]
    refine ⟨h1, ?_, ?_⟩
    · rw [h2]
      exact cmpNat_lt_or_gt p q hpq
    · rw [h1, h2]
      rcases cmpNat_lt_or_gt p q hpq with h | h <;> rw [h] <;> simp

/-- C9 witness: the disagreement evaluated at one concrete pair. -/
theorem C9_witness :
    IPv4CIDR.pcmp ⟨⟨10, 0, 0, 1⟩, 24⟩ ⟨⟨10, 0, 0, 1⟩, 16⟩ = some .eq
    ∧ (IPv4CIDR.cmp ⟨⟨10, 0, 0, 1⟩, 24⟩ ⟨⟨10, 0, 0, 1⟩, 16⟩ = .lt ∨
        IPv4CIDR.cmp ⟨⟨10, 0, 0, 1⟩, 24⟩ ⟨⟨10, 0, 0, 1⟩, 16⟩ = .gt)
    ∧ IPv4CIDR.pcmp ⟨⟨10, 0, 0, 1⟩, 24⟩ ⟨⟨10, 0, 0, 1⟩, 16⟩ ≠
        some (IPv4CIDR.cmp ⟨⟨10, 0, 0, 1⟩, 24⟩ ⟨⟨10, 0, 0, 1⟩, 16⟩) :=
  C9_pcmp_cmp_disagree.1 ⟨10, 0, 0, 1⟩ 24 16 (by decide)

/-- C10: no parse entry point ever returns MissingAddress — the split
always yields a first (possibly empty) field — and the empty input fails
with AddressParseError instead. -/
theorem C10_missingAddress_unreachable :
    (∀ s : List Char, IPv4CIDR.fromStr s ≠ .error .missingAddress)
  ∧ (∀ s : List Char, IPv6CIDR.fromStr s ≠ .error .missingAddress)
  ∧ (∀ s : List Char, IPCIDR.fromStr s ≠ .error .missingAddress)
  ∧ IPv4CIDR.fromStr (String.toList "") =
      .error (.addressParseError .invalid)
  ∧ IPv6CIDR.fromStr (String.toList "") =
      .error (.addressParseError .invalid)
  ∧ IPCIDR.fromStr (String.toList "") =
      .error (.addressParseError .invalid) :=
  ⟨IPv4CIDR.fromStr_ne_missingAddress4, IPv6CIDR.fromStr_ne_missingAddress6,
    IPCIDR.fromStr_ne_missingAddressIP, by decide, by decide, by decide⟩

end NetUtils
